import Mathlib

/-!
# Verification of the SHFB Access Score dashboard pipeline (`app.py`)

Shallow embedding of the data-selection/aggregation pipeline of the
dashboard: score-table filtering, county enrichment (pandas left merge),
map-stage geometry joins with default substitution, color-scale bounds,
summary statistics, top/bottom-10 rankings, and the agency-payload decode
(`json.loads` modelled by an executable JSON parser).

Tables are lists of rows (pandas frames in row order); a pandas `NaN` cell
is `Option.none`; floats are modelled by `ℚ`.
-/

namespace SHFB

/-- One row of the precomputed score table (`pre_df`): columns
`GEOID, urban_threshold, rural_threshold, week, day, hour, Access_Score,
Top_Agencies`.  The `Top_Agencies` cell is kept abstract here as `Cell`
(defined below, before its first use it is a type parameter-free field). -/
structure ScoreRowBase where
  geoid : String
  urban : Int
  rural : Int
  week : Int
  day : String
  hour : Int
  score : ℚ
deriving DecidableEq, Repr

/-- A JSON value, the result type of `json.loads`. -/
inductive JVal where
  | jnull : JVal
  | jbool : Bool → JVal
  | jnum : ℚ → JVal
  | jstr : String → JVal
  | jarr : List JVal → JVal
  | jobj : List (String × JVal) → JVal

/-- A `Top_Agencies` dataframe cell: either a text blob (to be decoded by
`json.loads`), an already-structured value, or a missing value (`None`). -/
inductive Cell where
  | cstr : String → Cell
  | cjson : JVal → Cell
  | cnone : Cell

/-- One row of the precomputed score table together with its
`Top_Agencies` payload cell. -/
structure ScoreRow extends ScoreRowBase where
  topAgencies : Cell

/-- One row of the tract-to-county mapping `geo_map`
(columns `GEOID_x`/`County_x`, renamed to `GEOID`/`County_x` before the
merge). -/
structure GeoRow where
  geoid : String
  county : String
deriving DecidableEq, Repr

/-- One row of the tract geometry table `tracts_gdf` (`GEOID, geometry`);
the geometry itself is opaque to the pipeline, so only the key is kept. -/
structure TractRow where
  geoid : String
deriving DecidableEq, Repr

/-- The row-selection predicate of the filter block (`app.py` lines
55–72): equality on `urban_threshold`, `rural_threshold`, `week`, `day`,
and — depending on the `after_hours` checkbox — either `hour >= 17` or
`hour == hour_sel`. -/
def rowMatches (afterHours : Bool) (urbanSel ruralSel weekSel : Int)
    (daySel : String) (hourSel : Int) (row : ScoreRow) : Bool :=
  row.urban = urbanSel && row.rural = ruralSel && row.week = weekSel &&
    row.day = daySel &&
    (if afterHours then decide (17 ≤ row.hour) else decide (row.hour = hourSel))

/-- `filtered_df`: the subset of `pre_df` selected by the boolean mask
(`app.py` lines 55–72; `.copy()` is identity in a value model). -/
def filteredDf (afterHours : Bool) (urbanSel ruralSel weekSel : Int)
    (daySel : String) (hourSel : Int) (pre : List ScoreRow) : List ScoreRow :=
  pre.filter (rowMatches afterHours urbanSel ruralSel weekSel daySel hourSel)

/-- A row of the Enriched View: `filtered_df` after the left merge with
`geo_map_subset[["GEOID", "County_x"]]` and the rename `County_x → County`
(`app.py` lines 81–83).  An unmatched key leaves a pandas `NaN` in the
`County` column, modelled as `none`. -/
structure EnrichedRow where
  base : ScoreRow
  county : Option String

/-- The rows a single left row `r` contributes to a pandas left merge on
`GEOID`: all matching right rows in right order, or one row with `NaN`
(`none`) when nothing matches. -/
def enrichOne (geo : List GeoRow) (r : ScoreRow) : List EnrichedRow :=
  match geo.filter (fun g => g.geoid = r.geoid) with
  | [] => [⟨r, none⟩]
  | gs => gs.map (fun g => ⟨r, some g.county⟩)

/-- The Enriched View: `filtered_df.merge(geo_map_subset[["GEOID",
"County_x"]], on="GEOID", how="left")` followed by the rename
(`app.py` lines 81–83). -/
def enrich (f : List ScoreRow) (geo : List GeoRow) : List EnrichedRow :=
  f.flatMap (enrichOne geo)

/-- A row of a map frame (`plot_df`) after `fillna`: `GEOID`, its access
score (`0.0` when no score row matched) and county (`"Unknown"` when the
merge left `NaN`).  Geometry is opaque and omitted; the folium frame
additionally carries the `Top_Agencies` column for popups, which no claim
touches. -/
structure MapRow where
  geoid : String
  score : ℚ
  county : String
deriving DecidableEq, Repr

/-- Rows contributed by one geometry row in the map-stage left merge
(geometry is the driving table), with the `fillna(0.0)` /
`fillna("Unknown")` defaulting of `app.py` lines 92–93 and 140–141
applied. -/
def mapMergeOne (enr : List EnrichedRow) (t : TractRow) : List MapRow :=
  match enr.filter (fun e => e.base.geoid = t.geoid) with
  | [] => [⟨t.geoid, 0, "Unknown"⟩]
  | es => es.map (fun e => ⟨t.geoid, e.base.score, e.county.getD "Unknown"⟩)

/-- The static-map frame (`app.py` lines 88–93):
`tracts_gdf[tracts_gdf["GEOID"].isin(geoids)]` — geometry restricted to
the GEOIDs present in the filtered data — left-merged with the enriched
columns, then defaulted by `fillna`. -/
def staticPlotDf (tracts : List TractRow) (enr : List EnrichedRow) : List MapRow :=
  (tracts.filter
      (fun t => (enr.map (fun e => e.base.geoid)).contains t.geoid)).flatMap
    (mapMergeOne enr)

/-- The folium-map frame (`app.py` lines 136–141): the full `tracts_gdf`
left-merged with the enriched columns, then defaulted by `fillna`. -/
def foliumPlotDf (tracts : List TractRow) (enr : List EnrichedRow) : List MapRow :=
  tracts.flatMap (mapMergeOne enr)

/-- `plot_df["Access_Score"].max()`: `none` models the `NaN` that pandas
returns on an empty column (the only non-finite source in this model,
where scores are exact rationals). -/
def maxScore (pdf : List MapRow) : Option ℚ :=
  pdf.foldr
    (fun r acc => match acc with
      | none => some r.score
      | some m => some (max r.score m))
    none

/-- The color-scale bounds (`app.py` lines 95–97): `vmin = 0`,
`vmax = max`, and if `vmax` is non-finite (`none`) or `vmax ≤ vmin`, then
`vmax = vmin + 1.0`. -/
def scaleBounds (pdf : List MapRow) : ℚ × ℚ :=
  let vmin : ℚ := 0
  match maxScore pdf with
  | none => (vmin, vmin + 1)
  | some m => if m ≤ vmin then (vmin, vmin + 1) else (vmin, m)

/-- Outcome of a pipeline run: either the empty-result halt
(`st.warning` + `st.stop`, `app.py` lines 74–76), reached before any
join, or the Enriched View reaching the rendering stages. -/
inductive PipeResult where
  | noData : PipeResult
  | rendered : List EnrichedRow → PipeResult

/-- The filter → empty-guard → county-merge prefix of the script: the
merge of lines 81–83 is performed only when the filtered frame is
non-empty, since `st.stop()` aborts the run first otherwise. -/
def pipeline (afterHours : Bool) (urbanSel ruralSel weekSel : Int)
    (daySel : String) (hourSel : Int)
    (pre : List ScoreRow) (geo : List GeoRow) : PipeResult :=
  let f := filteredDf afterHours urbanSel ruralSel weekSel daySel hourSel pre
  if f.isEmpty then PipeResult.noData else PipeResult.rendered (enrich f geo)

/-! ### Concrete fixtures used by witnesses and counterexamples -/

/-- A one-row tract-to-county mapping. -/
def geoC : List GeoRow := [⟨"g", "Chatham"⟩]

/-- A score row for tract `"g"` at the given hour, matching the filter
selection `(15, 30, 1, "Mon")`. -/
def rowAt (h : Int) : ScoreRow := ⟨⟨"g", 15, 30, 1, "Mon", h, 4⟩, Cell.cnone⟩

/-- A two-row score table for one tract at the after-hours hours 17 and
18. -/
def preTwoHours : List ScoreRow := [rowAt 17, rowAt 18]

/-- A filtered view containing a single tract `"g2"` that has no county
match in `geoC`. -/
def fNoCounty : List ScoreRow := [⟨⟨"g2", 15, 30, 1, "Mon", 10, 2⟩, Cell.cnone⟩]

/-- Two geometry rows, for tracts `"g1"` and `"g2"`. -/
def tracts2 : List TractRow := [⟨"g1"⟩, ⟨"g2"⟩]

/-- An enriched view holding only tract `"g1"`; tract `"g2"` has geometry
but no score row. -/
def enrG1 : List EnrichedRow :=
  [⟨⟨⟨"g1", 15, 30, 1, "Mon", 10, 3⟩, Cell.cnone⟩, some "Alamance"⟩]

/-! ### Summary statistics (`filtered_df["Access_Score"].describe()`,
`app.py` lines 212–213) -/

/-- `describe()`'s `mean`: `NaN` (`none`) on an empty column. -/
def statMean (l : List ℚ) : Option ℚ :=
  if l.length = 0 then none else some (l.sum / l.length)

/-- The square of `describe()`'s `std` (pandas sample standard
deviation, `ddof = 1`): the sample variance `Σ (x − mean)² / (n − 1)`.
`none` models the `NaN` pandas reports for `n < 2`.  The reported
standard deviation is the square root of this, so it equals `0` exactly
when this is `0`. -/
def statVar (l : List ℚ) : Option ℚ :=
  if l.length < 2 then none
  else some ((l.map (fun x => (x - l.sum / l.length) ^ 2)).sum / ((l.length : ℚ) - 1))

/-- `describe()`'s `min`. -/
def statMin (l : List ℚ) : Option ℚ :=
  match l with
  | [] => none
  | x :: xs => some (xs.foldl min x)

/-- `describe()`'s `max`. -/
def statMax (l : List ℚ) : Option ℚ :=
  match l with
  | [] => none
  | x :: xs => some (xs.foldl max x)

/-! ### Top/bottom-10 ranking tables (`app.py` lines 215–220) -/

/-- A row of the top/bottom tables: the `[["GEOID", "County",
"Access_Score"]]` projection.  `reset_index(drop=True)` renumbers rows
from zero, which a Lean list does by construction.  The `County` cell may
be `NaN` (`none`) — the Enriched View is never county-defaulted. -/
structure RankRow where
  geoid : String
  county : Option String
  score : ℚ
deriving DecidableEq, Repr

/-- The `(GEOID, County, Access_Score)` projection of an enriched row. -/
def projRank (e : EnrichedRow) : RankRow := ⟨e.base.geoid, e.county, e.base.score⟩

/-- Row order produced by `nlargest(_, "Access_Score")`: score
descending. -/
def descRel (a b : EnrichedRow) : Prop := b.base.score ≤ a.base.score

/-- Row order produced by `nsmallest(_, "Access_Score")`: score
ascending. -/
def ascRel (a b : EnrichedRow) : Prop := a.base.score ≤ b.base.score

instance : DecidableRel descRel := fun a b =>
  inferInstanceAs (Decidable (b.base.score ≤ a.base.score))

instance : DecidableRel ascRel := fun a b =>
  inferInstanceAs (Decidable (a.base.score ≤ b.base.score))

instance : IsTotal EnrichedRow descRel := ⟨fun a b => le_total b.base.score a.base.score⟩

instance : IsTotal EnrichedRow ascRel := ⟨fun a b => le_total a.base.score b.base.score⟩

instance : IsTrans EnrichedRow descRel :=
  ⟨fun _ _ _ hab hbc => le_trans hbc hab⟩

instance : IsTrans EnrichedRow ascRel :=
  ⟨fun _ _ _ hab hbc => le_trans hab hbc⟩

/-- `filtered_df.nlargest(10, "Access_Score")[["GEOID", "County",
"Access_Score"]].reset_index(drop=True)`: the first 10 rows in
score-descending order; pandas `nlargest` keeps the first occurrence
among ties (`keep='first'`), i.e. the sort is stable, which insertion
sort is. -/
def top10 (f : List EnrichedRow) : List RankRow :=
  ((List.insertionSort descRel f).take 10).map projRank

/-- `filtered_df.nsmallest(10, "Access_Score")[...]`, analogously. -/
def bottom10 (f : List EnrichedRow) : List RankRow :=
  ((List.insertionSort ascRel f).take 10).map projRank

/-- The 10th-largest score of the view (the score at descending rank 9),
when it exists. -/
def tenthLargest (f : List EnrichedRow) : Option ℚ :=
  ((List.insertionSort descRel f).get? 9).map (fun e => e.base.score)

/-- The 10th-smallest score of the view (the score at ascending rank 9),
when it exists. -/
def tenthSmallest (f : List EnrichedRow) : Option ℚ :=
  ((List.insertionSort ascRel f).get? 9).map (fun e => e.base.score)

/-! ### `json.loads` — executable model of the Python stdlib decoder
(an external collaborator of the script), for the JSON fragment the
payloads exercise: `null`/`true`/`false`, numbers without exponents,
strings (backslash escapes for `n`, `t`, `r` and pass-through
otherwise), arrays and objects.  A parse is accepted only when the
remainder is whitespace, matching `json.loads`' strictness. -/

/-- JSON whitespace. -/
def isWs (c : Char) : Bool := c = ' ' || c = '\n' || c = '\t' || c = '\r'

/-- Drop leading whitespace. -/
def skipWs : List Char → List Char
  | [] => []
  | c :: cs => if isWs c then skipWs cs else c :: cs

/-- The value of a decimal digit character. -/
def digitVal (c : Char) : Option Nat :=
  if 48 ≤ c.toNat && c.toNat ≤ 57 then some (c.toNat - 48) else none

/-- Split a maximal run of leading digits. -/
def takeDigits : List Char → (List Nat × List Char)
  | [] => ([], [])
  | c :: cs =>
    match digitVal c with
    | some d =>
      match takeDigits cs with
      | (ds, rest) => (d :: ds, rest)
    | none => ([], c :: cs)

/-- Digits to a natural number, most significant first. -/
def digitsToNat (ds : List Nat) : Nat := ds.foldl (fun a d => a * 10 + d) 0

/-- Parse a JSON number (optional sign, integer part, optional fraction;
exponents are not used by any payload here). -/
def parseNumber (cs : List Char) : Option (ℚ × List Char) :=
  let signSplit : Bool × List Char :=
    match cs with
    | '-' :: r => (true, r)
    | _ => (false, cs)
  match takeDigits signSplit.2 with
  | (ds, rest) =>
    if ds.isEmpty then none
    else
      let ipart : ℚ := (digitsToNat ds : ℚ)
      match rest with
      | '.' :: r2 =>
        match takeDigits r2 with
        | (fs, rest2) =>
          if fs.isEmpty then none
          else
            let q : ℚ := ipart + (digitsToNat fs : ℚ) / ((10 : ℚ) ^ fs.length)
            some (if signSplit.1 then -q else q, rest2)
      | _ => some (if signSplit.1 then -ipart else ipart, rest)

/-- The character denoted by a backslash escape. -/
def escChar (c : Char) : Char :=
  if c = 'n' then '\n' else if c = 't' then '\t' else if c = 'r' then '\r' else c

/-- Parse the body of a JSON string after the opening quote, up to the
closing quote. -/
def parseStringBody : List Char → Option (List Char × List Char)
  | [] => none
  | '"' :: rest => some ([], rest)
  | '\\' :: c :: rest =>
    (parseStringBody rest).map (fun p => (escChar c :: p.1, p.2))
  | c :: rest => (parseStringBody rest).map (fun p => (c :: p.1, p.2))

/-- Consume an expected literal. -/
def dropLit : List Char → List Char → Option (List Char)
  | [], rest => some rest
  | _ :: _, [] => none
  | l :: ls, c :: rest => if c = l then dropLit ls rest else none

mutual

/-- Parse one JSON value; `fuel` bounds the recursion depth and is
chosen large enough at the top level. -/
def parseVal : Nat → List Char → Option (JVal × List Char)
  | 0, _ => none
  | Nat.succ fuel, cs =>
    match skipWs cs with
    | [] => none
    | c :: rest =>
      if c = 'n' then (dropLit ['u', 'l', 'l'] rest).map (fun r => (JVal.jnull, r))
      else if c = 't' then
        (dropLit ['r', 'u', 'e'] rest).map (fun r => (JVal.jbool true, r))
      else if c = 'f' then
        (dropLit ['a', 'l', 's', 'e'] rest).map (fun r => (JVal.jbool false, r))
      else if c = '"' then
        (parseStringBody rest).map (fun p => (JVal.jstr (String.mk p.1), p.2))
      else if c = '[' then
        match skipWs rest with
        | ']' :: r2 => some (JVal.jarr [], r2)
        | r1 => (parseItems fuel r1).map (fun p => (JVal.jarr p.1, p.2))
      else if c = '\x7b' then
        match skipWs rest with
        | '\x7d' :: r2 => some (JVal.jobj [], r2)
        | r1 => (parseMembers fuel r1).map (fun p => (JVal.jobj p.1, p.2))
      else (parseNumber (c :: rest)).map (fun p => (JVal.jnum p.1, p.2))

/-- Parse the comma-separated items of a non-empty JSON array, up to the
closing bracket. -/
def parseItems : Nat → List Char → Option (List JVal × List Char)
  | 0, _ => none
  | Nat.succ fuel, cs =>
    match parseVal fuel cs with
    | none => none
    | some (v, rest) =>
      match skipWs rest with
      | ',' :: r2 =>
        match parseItems fuel r2 with
        | none => none
        | some (vs, r3) => some (v :: vs, r3)
      | ']' :: r2 => some ([v], r2)
      | _ => none

/-- Parse the comma-separated members of a non-empty JSON object, up to
the closing brace. -/
def parseMembers : Nat → List Char → Option (List (String × JVal) × List Char)
  | 0, _ => none
  | Nat.succ fuel, cs =>
    match skipWs cs with
    | '"' :: r1 =>
      match parseStringBody r1 with
      | none => none
      | some (k, r2) =>
        match skipWs r2 with
        | ':' :: r3 =>
          match parseVal fuel r3 with
          | none => none
          | some (v, r4) =>
            match skipWs r4 with
            | ',' :: r5 =>
              match parseMembers fuel r5 with
              | none => none
              | some (ms, r6) => some ((String.mk k, v) :: ms, r6)
            | '\x7d' :: r5 => some ([(String.mk k, v)], r5)
            | _ => none
        | _ => none
    | _ => none

end

/-- `json.loads`: parse a complete JSON document, rejecting trailing
non-whitespace. -/
def jsonParse (s : String) : Option JVal :=
  match parseVal (2 * s.data.length + 4) s.data with
  | none => none
  | some (v, rest) => if (skipWs rest).isEmpty then some v else none

/-! ### Agency payload decode and clicked-tract lookup
(`app.py` lines 186–204) -/

/-- Lines 191–197: `agencies = json.loads(top_json) if
isinstance(top_json, str) else top_json`, inside `try/except` — a decode
failure yields the Python empty list.  A `None`/`NaN` cell is not a
string and passes through; both are falsy-or-non-list and are modelled
as `jnull`. -/
def decodeCell (c : Cell) : JVal :=
  match c with
  | Cell.cstr s =>
    match jsonParse s with
    | some v => v
    | none => JVal.jarr []
  | Cell.cjson v => v
  | Cell.cnone => JVal.jnull

/-- First value bound to key `k` in a JSON object; `none` for a missing
key or a non-object (a missing column entry is `NaN` in the dataframe). -/
def getField (v : JVal) (k : String) : Option JVal :=
  match v with
  | JVal.jobj ms => ((ms.filter (fun m => m.1 = k)).head?).map (fun m => m.2)
  | _ => none

/-- Numeric JSON payload value, if any. -/
def asNum : JVal → Option ℚ
  | JVal.jnum q => some q
  | _ => none

/-- String JSON payload value, if any. -/
def asStr : JVal → Option String
  | JVal.jstr s => some s
  | _ => none

/-- One displayed row of the agency-breakdown table (`df_ag`). -/
structure AgRow where
  name : Option String
  contribution : Option ℚ
deriving DecidableEq, Repr

/-- Round to the nearest integer, ties to even — the rounding of
numpy/pandas `.round`. -/
def roundHalfEven (q : ℚ) : ℤ :=
  if q - (⌊q⌋ : ℚ) < 1 / 2 then ⌊q⌋
  else if 1 / 2 < q - (⌊q⌋ : ℚ) then ⌊q⌋ + 1
  else if 2 ∣ ⌊q⌋ then ⌊q⌋ else ⌊q⌋ + 1

/-- `.round(3)`: round half to even at the third decimal place. -/
def round3 (q : ℚ) : ℚ := (roundHalfEven (q * 1000) : ℚ) / 1000

/-- Lines 200–204: when `agencies` is truthy and a list, build
`pd.DataFrame(agencies)` and round the `Agency_Contribution` column to 3
decimals; otherwise (empty list, `None`/`NaN`, or any non-list) the
"no agency contribution data" branch shows an empty table. -/
def agencyTable (a : JVal) : List AgRow :=
  match a with
  | JVal.jarr [] => []
  | JVal.jarr l =>
    l.map (fun v =>
      { name := (getField v "Name").bind asStr,
        contribution := ((getField v "Agency_Contribution").bind asNum).map round3 })
  | _ => []

/-- The whole per-cell decode path: raw payload cell to displayed rows.
Total by construction — no decode error escapes. -/
def agencyView (c : Cell) : List AgRow := agencyTable (decodeCell c)

/-- Lines 186–189: `filtered_df.loc[filtered_df["GEOID"].astype(str) ==
str(geoid_clicked), "Top_Agencies"].values[0]` — the payload of the
first matching row in frame order; `none` models the `IndexError` of an
empty selection (caught by the `except`). -/
def topJsonLookup (f : List EnrichedRow) (g : String) : Option Cell :=
  ((f.filter (fun e => e.base.geoid = g)).head?).map (fun e => e.base.topAgencies)

/-- The clicked-GEOID path end to end: decoded agency table, or `[]`
when no row matches. -/
def clickedAgencies (f : List EnrichedRow) (g : String) : List AgRow :=
  match topJsonLookup f g with
  | none => []
  | some c => agencyView c

/-- An enriched row with the given GEOID, score and payload, at the
fixture filter key. -/
def erow (g : String) (q : ℚ) (c : Cell) : EnrichedRow :=
  ⟨⟨⟨g, 15, 30, 1, "Mon", 10, q⟩, c⟩, some "C"⟩

/-- A one-row structured payload naming agency `a` with contribution
`q`. -/
def payload (a : String) (q : ℚ) : Cell :=
  Cell.cjson (JVal.jarr
    [JVal.jobj [("Name", JVal.jstr a), ("Agency_Contribution", JVal.jnum q)]])

/-- Eleven enriched rows with pairwise-distinct scores 1..11. -/
def f11 : List EnrichedRow :=
  [erow "a" 1 Cell.cnone, erow "b" 2 Cell.cnone, erow "c" 3 Cell.cnone,
   erow "d" 4 Cell.cnone, erow "e" 5 Cell.cnone, erow "f" 6 Cell.cnone,
   erow "g" 7 Cell.cnone, erow "h" 8 Cell.cnone, erow "i" 9 Cell.cnone,
   erow "j" 10 Cell.cnone, erow "k" 11 Cell.cnone]

/-- Twenty enriched rows with pairwise-distinct scores 1..20. -/
def f20 : List EnrichedRow :=
  [erow "t" 1 Cell.cnone, erow "t" 2 Cell.cnone, erow "t" 3 Cell.cnone,
   erow "t" 4 Cell.cnone, erow "t" 5 Cell.cnone, erow "t" 6 Cell.cnone,
   erow "t" 7 Cell.cnone, erow "t" 8 Cell.cnone, erow "t" 9 Cell.cnone,
   erow "t" 10 Cell.cnone, erow "t" 11 Cell.cnone, erow "t" 12 Cell.cnone,
   erow "t" 13 Cell.cnone, erow "t" 14 Cell.cnone, erow "t" 15 Cell.cnone,
   erow "t" 16 Cell.cnone, erow "t" 17 Cell.cnone, erow "t" 18 Cell.cnone,
   erow "t" 19 Cell.cnone, erow "t" 20 Cell.cnone]

end SHFB

namespace SHFB

/-- C1: a score row is in the Filtered View iff it is in the score table
and matches `urban_threshold`, `rural_threshold`, `week`, `day` exactly,
and its hour matches the selected hour when the after-hours flag is false,
respectively is `≥ 17` when the flag is true.  The `if` on the flag makes
the two hour modes mutually exclusive: for each flag value exactly one
hour condition is applied. -/
theorem filteredDf_mem_iff (afterHours : Bool) (urbanSel ruralSel weekSel : Int)
    (daySel : String) (hourSel : Int) (pre : List ScoreRow) (row : ScoreRow) :
    row ∈ filteredDf afterHours urbanSel ruralSel weekSel daySel hourSel pre ↔
      row ∈ pre ∧ row.urban = urbanSel ∧ row.rural = ruralSel ∧
        row.week = weekSel ∧ row.day = daySel ∧
        (if afterHours then 17 ≤ row.hour else row.hour = hourSel) := by
  unfold filteredDf rowMatches
  rw [List.mem_filter]
  cases afterHours <;> simp [and_assoc]

/-- C3: the color scale has lower bound `0`; the upper bound is `1`
(= lower + 1.0) when the maximum is non-finite (`none`) or `≤ 0`, and is
the observed maximum otherwise; the resulting range is never zero-width
or inverted. -/
theorem scaleBounds_spec (pdf : List MapRow) :
    (scaleBounds pdf).1 = 0 ∧
    (maxScore pdf = none → (scaleBounds pdf).2 = 1) ∧
    (∀ m : ℚ, maxScore pdf = some m → m ≤ 0 → (scaleBounds pdf).2 = 1) ∧
    (∀ m : ℚ, maxScore pdf = some m → 0 < m → (scaleBounds pdf).2 = m) ∧
    (scaleBounds pdf).1 < (scaleBounds pdf).2 := by
  rcases hm : maxScore pdf with _ | m
  · have hsb : scaleBounds pdf = (0, 0 + 1) := by
      unfold scaleBounds; rw [hm]
    refine ⟨by simp [hsb], fun _ => by simp [hsb], ?_, ?_, by simp [hsb]⟩
    · intro m hms _; simp at hms
    · intro m hms _; simp at hms
  · by_cases hle : m ≤ 0
    · have hsb : scaleBounds pdf = (0, 0 + 1) := by
        unfold scaleBounds; rw [hm]; simp [hle]
      refine ⟨by simp [hsb], ?_, fun _ _ _ => by simp [hsb], ?_, by simp [hsb]⟩
      · intro hnone; simp at hnone
      · intro m2 hms hpos
        obtain rfl : m = m2 := Option.some.inj hms
        exact absurd hpos (not_lt.mpr hle)
    · have hsb : scaleBounds pdf = (0, m) := by
        unfold scaleBounds; rw [hm]; simp [hle]
      refine ⟨by simp [hsb], ?_, ?_, ?_, ?_⟩
      · intro hnone; simp at hnone
      · intro m2 hms hle2
        obtain rfl : m = m2 := Option.some.inj hms
        exact absurd hle2 hle
      · intro m2 hms _
        obtain rfl : m = m2 := Option.some.inj hms
        simp [hsb]
      · simp [hsb]
        exact lt_of_not_ge hle

/-- Witness for `scaleBounds_spec` at the one-row frame with score `2`. -/
theorem scaleBounds_spec_witness :
    maxScore [({ geoid := "g", score := 2, county := "Chatham" } : MapRow)] = some 2 ∧
    (scaleBounds [({ geoid := "g", score := 2, county := "Chatham" } : MapRow)]).2 = 2 :=
  ⟨rfl,
    (scaleBounds_spec [({ geoid := "g", score := 2, county := "Chatham" } : MapRow)]).2.2.2.1
      2 rfl (by norm_num)⟩

/-- C5: when the filter parameters match zero rows, the pipeline halts
with the "no data" notice (`st.warning`/`st.stop`) before the county
merge: the result carries no joined data. -/
theorem pipeline_halts_on_empty (afterHours : Bool) (urbanSel ruralSel weekSel : Int)
    (daySel : String) (hourSel : Int) (pre : List ScoreRow) (geo : List GeoRow)
    (hempty : filteredDf afterHours urbanSel ruralSel weekSel daySel hourSel pre = []) :
    pipeline afterHours urbanSel ruralSel weekSel daySel hourSel pre geo =
      PipeResult.noData := by
  simp [pipeline, hempty]

/-- Witness for `pipeline_halts_on_empty`: the two-row after-hours table
matches nothing at exact hour 10. -/
theorem pipeline_halts_on_empty_witness :
    filteredDf false 15 30 1 "Mon" 10 preTwoHours = [] ∧
    pipeline false 15 30 1 "Mon" 10 preTwoHours geoC = PipeResult.noData :=
  ⟨rfl, pipeline_halts_on_empty false 15 30 1 "Mon" 10 preTwoHours geoC rfl⟩

/-- Helper: with pairwise-distinct keys at most one county row matches a
given GEOID. -/
theorem geo_filter_length_le_one (geo : List GeoRow)
    (hn : (geo.map GeoRow.geoid).Nodup) (g : String) :
    (geo.filter (fun x => x.geoid = g)).length ≤ 1 := by
  induction geo with
  | nil => simp
  | cons a rest ih =>
    simp only [List.map_cons, List.nodup_cons] at hn
    by_cases hag : a.geoid = g
    · have hrest : rest.filter (fun x => x.geoid = g) = [] := by
        rw [List.filter_eq_nil_iff]
        intro x hx
        simp only [decide_eq_true_eq]
        intro hxg
        exact hn.1 (by rw [hag, ← hxg]; exact List.mem_map_of_mem GeoRow.geoid hx)
      simp [List.filter_cons, hag, hrest]
    · simpa [List.filter_cons, hag] using ih hn.2

/-- Helper: with unique county keys, each score row contributes exactly
one row to the county merge. -/
theorem enrichOne_singleton (geo : List GeoRow)
    (hn : (geo.map GeoRow.geoid).Nodup) (r : ScoreRow) :
    ∃ c, enrichOne geo r = [⟨r, c⟩] := by
  have hle := geo_filter_length_le_one geo hn r.geoid
  unfold enrichOne
  rcases hgs : geo.filter (fun g => g.geoid = r.geoid) with _ | ⟨g0, rest⟩
  · exact ⟨none, by rw [hgs]⟩
  · rw [hgs] at hle
    cases rest with
    | nil => exact ⟨some g0.county, by rw [hgs]; rfl⟩
    | cons g1 r2 => simp at hle

/-- C6 (amended): with GEOID a unique key of the tract-to-county mapping,
the left merge preserves cardinality: the Enriched View has exactly as
many rows as the Filtered View, and each GEOID occurs in it exactly as
often as in the Filtered View (once per filtered row; a GEOID repeated in
the Filtered View — possible in after-hours mode — appears repeatedly). -/
theorem enrich_preserves_cardinality (f : List ScoreRow) (geo : List GeoRow)
    (hn : (geo.map GeoRow.geoid).Nodup) :
    (enrich f geo).length = f.length ∧
      ∀ g : String,
        (enrich f geo).countP (fun e => e.base.geoid = g) =
          f.countP (fun r => r.geoid = g) := by
  induction f with
  | nil => simp [enrich]
  | cons r rest ih =>
    obtain ⟨c, hc⟩ := enrichOne_singleton geo hn r
    have hstep : enrich (r :: rest) geo = enrichOne geo r ++ enrich rest geo := by
      simp [enrich]
    constructor
    · rw [hstep, List.length_append, hc, ih.1]
      simp [Nat.add_comm]
    · intro g
      rw [hstep, List.countP_append, hc]
      by_cases hg : r.geoid = g <;>
        simp [List.countP_cons, hg, ih.2 g, Nat.add_comm]

/-- Witness for `enrich_preserves_cardinality` on the two-row after-hours
view over the one-row county mapping. -/
theorem enrich_preserves_cardinality_witness :
    (geoC.map GeoRow.geoid).Nodup ∧
    (enrich preTwoHours geoC).length = preTwoHours.length :=
  ⟨by decide, (enrich_preserves_cardinality preTwoHours geoC (by decide)).1⟩

/-- C6 counterexample: in after-hours mode one tract matches several
hours, so its GEOID appears more than once in the Enriched View even
though the county mapping's keys are unique — refuting "every row's GEOID
appears in the Enriched View exactly once". -/
theorem enrich_geoid_twice :
    (geoC.map GeoRow.geoid).Nodup ∧
    (filteredDf true 15 30 1 "Mon" 10 preTwoHours).length = 2 ∧
    (enrich (filteredDf true 15 30 1 "Mon" 10 preTwoHours) geoC).countP
        (fun e => e.base.geoid = "g") = 2 :=
  ⟨by decide, rfl, rfl⟩

/-- C7 (amended): a row of the Enriched View whose GEOID has no match in
the county mapping carries a missing county (`NaN`/`none`), not the
string `"Unknown"`; the `"Unknown"` substitution happens only in the
map-stage frames via `fillna`. -/
theorem enrich_unmatched_county_none (f : List ScoreRow) (geo : List GeoRow)
    (e : EnrichedRow) (he : e ∈ enrich f geo)
    (hnomatch : geo.filter (fun x => x.geoid = e.base.geoid) = []) :
    e.county = none := by
  rcases List.mem_flatMap.mp he with ⟨r, _, her⟩
  unfold enrichOne at her
  rcases hgs : geo.filter (fun g => g.geoid = r.geoid) with _ | ⟨g0, rest⟩
  · rw [hgs] at her
    rw [List.mem_singleton.mp her]
  · rw [hgs] at her
    exfalso
    simp only [List.mem_map] at her
    obtain ⟨g1, _, heq⟩ := her
    subst heq
    dsimp only at hnomatch
    rw [hgs] at hnomatch
    exact absurd hnomatch (by simp)

/-- Witness for `enrich_unmatched_county_none` on the one-row view whose
tract `"g2"` is absent from the county mapping. -/
theorem enrich_unmatched_county_none_witness :
    (⟨⟨⟨"g2", 15, 30, 1, "Mon", 10, 2⟩, Cell.cnone⟩, none⟩ : EnrichedRow) ∈
        enrich fNoCounty geoC ∧
    (⟨⟨⟨"g2", 15, 30, 1, "Mon", 10, 2⟩, Cell.cnone⟩, none⟩ : EnrichedRow).county =
      none :=
  ⟨by simp [enrich, fNoCounty, geoC, enrichOne, List.filter],
    enrich_unmatched_county_none fNoCounty geoC _
      (by simp [enrich, fNoCounty, geoC, enrichOne, List.filter]) rfl⟩

/-- C7 counterexample: the Enriched View row for a tract with no county
match shows `NaN` (`none`), not the literal `"Unknown"`, to the summary
and ranking consumers. -/
theorem enrich_county_not_unknown :
    (enrich fNoCounty geoC).map (fun e => e.county) = [none] ∧
    (enrich fNoCounty geoC).map (fun e => e.county) ≠ [some "Unknown"] := by
  constructor
  · rfl
  · intro hcontra
    rw [show (enrich fNoCounty geoC).map (fun e => e.county) = [none] from rfl]
      at hcontra
    cases hcontra

/-- Helper: every row the map-stage merge derives from one geometry row
carries that geometry row's GEOID. -/
theorem mapMergeOne_geoid (enr : List EnrichedRow) (t : TractRow) (m : MapRow)
    (hm : m ∈ mapMergeOne enr t) : m.geoid = t.geoid := by
  unfold mapMergeOne at hm
  rcases hes : enr.filter (fun e => e.base.geoid = t.geoid) with _ | ⟨e0, rest⟩
  · rw [hes] at hm
    rw [List.mem_singleton.mp hm]
  · rw [hes] at hm
    simp only [List.mem_map] at hm
    obtain ⟨e1, _, heq⟩ := hm
    rw [← heq]

/-- Helper: a geometry row with a different GEOID contributes no row with
GEOID `g`. -/
theorem mapMergeOne_filter_ne (enr : List EnrichedRow) (t : TractRow) (g : String)
    (ht : ¬ t.geoid = g) :
    (mapMergeOne enr t).filter (fun m => m.geoid = g) = [] := by
  rw [List.filter_eq_nil_iff]
  intro m hm
  simp only [decide_eq_true_eq]
  intro hmg
  exact ht ((mapMergeOne_geoid enr t m hm) ▸ hmg)

/-- Helper: a geometry row with GEOID `g` contributes exactly one row
with GEOID `g` when the enriched rows carrying `g` number at most one,
and exactly the defaulted row when they number zero. -/
theorem mapMergeOne_filter_eq (enr : List EnrichedRow) (t : TractRow) (g : String)
    (ht : t.geoid = g)
    (hle : (enr.filter (fun e => e.base.geoid = g)).length ≤ 1) :
    ((mapMergeOne enr t).filter (fun m => m.geoid = g)).length = 1 ∧
      (enr.filter (fun e => e.base.geoid = g) = [] →
        (mapMergeOne enr t).filter (fun m => m.geoid = g) =
          [⟨g, 0, "Unknown"⟩]) := by
  subst ht
  unfold mapMergeOne
  rcases hes : enr.filter (fun e => e.base.geoid = t.geoid) with _ | ⟨e0, rest⟩
  · rw [hes]
    exact ⟨by simp, fun _ => by simp⟩
  · rw [hes] at hle ⊢
    cases rest with
    | nil =>
      refine ⟨by simp, fun hemp => ?_⟩
      exact absurd hemp (by simp)
    | cons e1 r2 => simp at hle

/-- Helper: a GEOID absent from the geometry set never occurs in the
folium map frame. -/
theorem foliumPlotDf_absent (tracts : List TractRow) (enr : List EnrichedRow)
    (g : String) (h0 : ¬ g ∈ tracts.map TractRow.geoid) :
    (foliumPlotDf tracts enr).filter (fun m => m.geoid = g) = [] := by
  induction tracts with
  | nil => rfl
  | cons t ts ih =>
    simp only [List.map_cons, List.mem_cons, not_or] at h0
    have h1 : ¬ t.geoid = g := fun hc => h0.1 hc.symm
    rw [show foliumPlotDf (t :: ts) enr = mapMergeOne enr t ++ foliumPlotDf ts enr
        from List.flatMap_cons t ts (mapMergeOne enr),
      List.filter_append, mapMergeOne_filter_ne enr t g h1,
      ih (fun hc => h0.2 hc)]
    rfl

/-- C2 (amended): in the folium map frame — built from the full geometry
set — every GEOID of the geometry set (with pairwise-distinct geometry
keys) appears exactly once, provided the enriched data holds at most one
row for it; when it has no enriched row at all, its single output row is
defaulted to score `0.0` and county `"Unknown"`.  (The static map frame
instead restricts geometry to GEOIDs present in the filtered data, see
the counterexample.) -/
theorem foliumPlotDf_geoid_once (tracts : List TractRow) (enr : List EnrichedRow)
    (g : String)
    (hnd : (tracts.map TractRow.geoid).Nodup)
    (hg : g ∈ tracts.map TractRow.geoid)
    (hle : (enr.filter (fun e => e.base.geoid = g)).length ≤ 1) :
    ((foliumPlotDf tracts enr).filter (fun m => m.geoid = g)).length = 1 ∧
      (enr.filter (fun e => e.base.geoid = g) = [] →
        (foliumPlotDf tracts enr).filter (fun m => m.geoid = g) =
          [⟨g, 0, "Unknown"⟩]) := by
  induction tracts with
  | nil => cases hg
  | cons t ts ih =>
    simp only [List.map_cons, List.nodup_cons] at hnd
    have hstep : foliumPlotDf (t :: ts) enr = mapMergeOne enr t ++ foliumPlotDf ts enr :=
      List.flatMap_cons t ts (mapMergeOne enr)
    rcases List.mem_cons.mp hg with hgt | hgts
    · have hts : ¬ g ∈ ts.map TractRow.geoid := by
        rw [hgt]; exact hnd.1
      have habs := foliumPlotDf_absent ts enr g hts
      have hone := mapMergeOne_filter_eq enr t g hgt.symm hle
      constructor
      · rw [hstep, List.filter_append, habs, List.append_nil]
        exact hone.1
      · intro hemp
        rw [hstep, List.filter_append, habs, List.append_nil]
        exact hone.2 hemp
    · have h1 : ¬ t.geoid = g := by
        intro hc
        exact hnd.1 (hc ▸ hgts)
      have hrec := ih hnd.2 hgts
      constructor
      · rw [hstep, List.filter_append, mapMergeOne_filter_ne enr t g h1,
          List.nil_append]
        exact hrec.1
      · intro hemp
        rw [hstep, List.filter_append, mapMergeOne_filter_ne enr t g h1,
          List.nil_append]
        exact hrec.2 hemp

/-- Witness for `foliumPlotDf_geoid_once`: tract `"g2"` has geometry but
no score row, and shows up once in the folium frame, defaulted. -/
theorem foliumPlotDf_geoid_once_witness :
    (tracts2.map TractRow.geoid).Nodup ∧
    "g2" ∈ tracts2.map TractRow.geoid ∧
    (enrG1.filter (fun e => e.base.geoid = "g2")).length ≤ 1 ∧
    (((foliumPlotDf tracts2 enrG1).filter (fun m => m.geoid = "g2")).length = 1 ∧
      (enrG1.filter (fun e => e.base.geoid = "g2") = [] →
        (foliumPlotDf tracts2 enrG1).filter (fun m => m.geoid = "g2") =
          [⟨"g2", 0, "Unknown"⟩])) :=
  ⟨by decide, by decide, by decide,
    foliumPlotDf_geoid_once tracts2 enrG1 "g2" (by decide) (by decide) (by decide)⟩

/-- C2 counterexample: the static map frame restricts the geometry set to
GEOIDs present in the filtered data (`isin`), so tract `"g2"` — present
in the geometry set but absent from the score data — appears zero times
there, not once. -/
theorem staticPlotDf_missing_tract :
    "g2" ∈ tracts2.map TractRow.geoid ∧
    (staticPlotDf tracts2 enrG1).filter (fun m => m.geoid = "g2") = [] := by
  constructor
  · decide
  · rfl

/-- Helper: folding `min` over copies of the start value is the start
value. -/
theorem foldl_min_replicate (k : Nat) (s : ℚ) :
    (List.replicate k s).foldl min s = s := by
  induction k with
  | zero => rfl
  | succ k ih => rw [List.replicate_succ, List.foldl_cons, min_self]; exact ih

/-- Helper: folding `max` over copies of the start value is the start
value. -/
theorem foldl_max_replicate (k : Nat) (s : ℚ) :
    (List.replicate k s).foldl max s = s := by
  induction k with
  | zero => rfl
  | succ k ih => rw [List.replicate_succ, List.foldl_cons, max_self]; exact ih

/-- C8 (amended): for a view of `N ≥ 1` identical scores `s`, `describe`
reports mean `s` and min = max = `s`; the standard deviation is `0` for
`N ≥ 2` (its square, the sample variance, is `0`) but is `NaN` — not
`0` — for `N = 1`, because pandas uses the `ddof = 1` sample standard
deviation. -/
theorem describe_constant (n : Nat) (s : ℚ) (h1 : 1 ≤ n) :
    statMean (List.replicate n s) = some s ∧
    statMin (List.replicate n s) = some s ∧
    statMax (List.replicate n s) = some s ∧
    (2 ≤ n → statVar (List.replicate n s) = some 0) ∧
    (n = 1 → statVar (List.replicate n s) = none) := by
  have hn0 : n ≠ 0 := by omega
  have hnq : (n : ℚ) ≠ 0 := Nat.cast_ne_zero.mpr hn0
  have hmean : (List.replicate n s).sum / ((List.replicate n s).length : ℚ) = s := by
    rw [List.sum_replicate, nsmul_eq_mul, List.length_replicate,
      mul_div_cancel_left₀ s hnq]
  refine ⟨?_, ?_, ?_, ?_, ?_⟩
  · unfold statMean
    rw [if_neg (by rw [List.length_replicate]; exact hn0), hmean]
  · obtain ⟨m, rfl⟩ : ∃ m, n = m + 1 := ⟨n - 1, by omega⟩
    rw [List.replicate_succ]
    show some ((List.replicate m s).foldl min s) = some s
    rw [foldl_min_replicate]
  · obtain ⟨m, rfl⟩ : ∃ m, n = m + 1 := ⟨n - 1, by omega⟩
    rw [List.replicate_succ]
    show some ((List.replicate m s).foldl max s) = some s
    rw [foldl_max_replicate]
  · intro h2
    unfold statVar
    rw [if_neg (by rw [List.length_replicate]; omega)]
    have hmap : (List.replicate n s).map
        (fun x => (x - (List.replicate n s).sum / ((List.replicate n s).length : ℚ)) ^ 2) =
        List.replicate n 0 := by
      rw [List.map_replicate, hmean, sub_self]
      norm_num
    rw [hmap, List.sum_replicate, smul_zero, zero_div]
  · intro hone
    unfold statVar
    rw [if_pos (by rw [List.length_replicate]; omega)]

/-- Witness for `describe_constant` at three copies of the score `7`. -/
theorem describe_constant_witness :
    (1 ≤ 3 ∧ 2 ≤ 3) ∧
    statMean (List.replicate 3 (7 : ℚ)) = some 7 ∧
    statMin (List.replicate 3 (7 : ℚ)) = some 7 ∧
    statMax (List.replicate 3 (7 : ℚ)) = some 7 ∧
    statVar (List.replicate 3 (7 : ℚ)) = some 0 :=
  ⟨⟨by decide, by decide⟩, (describe_constant 3 7 (by decide)).1,
    (describe_constant 3 7 (by decide)).2.1,
    (describe_constant 3 7 (by decide)).2.2.1,
    (describe_constant 3 7 (by decide)).2.2.2.1 (by decide)⟩

/-- C8 counterexample: for a single score (`N = 1`) pandas reports a
`NaN` standard deviation (`ddof = 1` divides by `N − 1 = 0`), so the
claimed "standard deviation = 0 for every N ≥ 1" fails at `N = 1`. -/
theorem statVar_single_is_nan :
    statVar [(5 : ℚ)] = none ∧ statVar [(5 : ℚ)] ≠ some 0 := by
  refine ⟨rfl, ?_⟩
  intro hcontra
  rw [show statVar [(5 : ℚ)] = none from rfl] at hcontra
  cases hcontra

/-- C4: the agency-payload decode — text payloads are `json.loads`-ed
inside `try/except`, the result is displayed only when it is a truthy
list, and contributions are rounded to 3 decimals.  The sample payload
gives one row with contribution `0.123`; `None`/`NaN`, the empty string,
a non-JSON string, and every non-list JSON value give the empty table;
the decode is a total function — no error propagates. -/
theorem agency_decode_cases :
    agencyView
        (Cell.cstr "[\x7b\"Name\":\"A\",\"Agency_Contribution\":0.12345\x7d]") =
      [{ name := some "A", contribution := some (123 / 1000) }] ∧
    agencyView Cell.cnone = [] ∧
    agencyView (Cell.cstr "") = [] ∧
    agencyView (Cell.cstr "not json") = [] ∧
    (∀ v : JVal, (∀ l, v ≠ JVal.jarr l) → agencyView (Cell.cjson v) = []) := by
  refine ⟨?_, rfl, rfl, by rfl, ?_⟩
  · have h1 : agencyView
        (Cell.cstr "[\x7b\"Name\":\"A\",\"Agency_Contribution\":0.12345\x7d]") =
        [{ name := some "A",
           contribution :=
             some (round3 (((0 : ℕ) : ℚ) + ((12345 : ℕ) : ℚ) / (10 : ℚ) ^ (5 : ℕ))) }] :=
      rfl
    have hq : (((0 : ℕ) : ℚ) + ((12345 : ℕ) : ℚ) / (10 : ℚ) ^ (5 : ℕ)) * 1000 =
        2469 / 20 := by
      push_cast
      norm_num
    have hfl : ⌊(2469 : ℚ) / 20⌋ = 123 := by
      rw [Int.floor_eq_iff]
      norm_num
    have h3 : roundHalfEven ((2469 : ℚ) / 20) = 123 := by
      unfold roundHalfEven
      rw [hfl, if_pos (by norm_num)]
    have h2 : round3 (((0 : ℕ) : ℚ) + ((12345 : ℕ) : ℚ) / (10 : ℚ) ^ (5 : ℕ)) =
        123 / 1000 := by
      unfold round3
      rw [hq, h3]
      norm_num
    rw [h1, h2]
  intro v hv
  cases v with
  | jnull => rfl
  | jbool b => rfl
  | jnum q => rfl
  | jstr s => rfl
  | jarr l => exact absurd rfl (hv l)
  | jobj ms => rfl

/-- Witness for `agency_decode_cases`: the non-list hypothesis
discharged at the JSON number `5`. -/
theorem agency_decode_cases_witness :
    agencyView (Cell.cjson (JVal.jnum 5)) = [] :=
  agency_decode_cases.2.2.2.2 (JVal.jnum 5) (fun _ h => JVal.noConfusion h)

/-- C10: the clicked-GEOID breakdown decodes the `Top_Agencies` payload
of the first matching row in frame order (`.values[0]`); the payloads of
any later rows with the same GEOID — which occur in after-hours mode —
do not influence the result (the `post` rows are arbitrary). -/
theorem clicked_uses_first_match (pre post : List EnrichedRow) (e : EnrichedRow)
    (g : String) (hpre : ∀ x ∈ pre, ¬ x.base.geoid = g) (he : e.base.geoid = g) :
    topJsonLookup (pre ++ e :: post) g = some e.base.topAgencies ∧
    clickedAgencies (pre ++ e :: post) g = agencyView e.base.topAgencies := by
  have hfil : (pre ++ e :: post).filter (fun x => x.base.geoid = g) =
      e :: post.filter (fun x => x.base.geoid = g) := by
    rw [List.filter_append]
    have h1 : pre.filter (fun x => x.base.geoid = g) = [] := by
      rw [List.filter_eq_nil_iff]
      intro x hx
      simpa using hpre x hx
    rw [h1, List.nil_append]
    simp [List.filter_cons, he]
  have hlook : topJsonLookup (pre ++ e :: post) g = some e.base.topAgencies := by
    unfold topJsonLookup
    rw [hfil]
    rfl
  refine ⟨hlook, ?_⟩
  unfold clickedAgencies
  rw [hlook]

/-- Helper: in a list sorted by a reflexive relation, every element
among the first `j + 1` is related to the element at index `j`. -/
theorem sorted_take_rel (r : EnrichedRow → EnrichedRow → Prop)
    (hrefl : ∀ a, r a a) (l : List EnrichedRow) (hs : l.Sorted r) (j : Nat)
    (y : EnrichedRow) (hy : l.get? j = some y) :
    ∀ x ∈ l.take (j + 1), r x y := by
  intro x hx
  obtain ⟨hjl, hyget⟩ := List.get?_eq_some.mp hy
  obtain ⟨⟨i, hi⟩, hxeq⟩ := List.mem_iff_get.mp hx
  have hij : i < j + 1 := lt_of_lt_of_le hi (by rw [List.length_take]; exact min_le_left _ _)
  have hil : i < l.length := lt_of_lt_of_le hi (by rw [List.length_take]; exact min_le_right _ _)
  have hget : l.get ⟨i, hil⟩ = x := (List.get_take l hil hij).trans hxeq
  rcases Nat.lt_or_ge i j with hij2 | hij2
  · have hp := List.pairwise_iff_get.mp hs ⟨i, hil⟩ ⟨j, hjl⟩ hij2
    rw [hget, hyget] at hp
    exact hp
  · have hije : i = j := by omega
    subst hije
    have hxy : x = y := by rw [← hget, ← hyget]
    rw [hxy]
    exact hrefl y

/-- C9 (amended): for a Filtered View of at most 10 rows, the Top-10 and
Bottom-10 tables each contain all of its rows — the full view sorted by
score descending resp. ascending (stably), projected to
`(GEOID, County, Access_Score)` and re-indexed from zero.  For a view of
at least 20 rows whose 10th-smallest score is strictly below its
10th-largest score (no tie spanning the two boundaries), the two tables
are disjoint.  (For sizes strictly between 10 and 20 the tables
necessarily overlap even without ties — see the counterexample, which
refutes the original "disjoint by rank for size > 10 unless boundary
ties".) -/
theorem rank_tables_spec (f : List EnrichedRow) :
    (f.length ≤ 10 →
      top10 f = (List.insertionSort descRel f).map projRank ∧
      bottom10 f = (List.insertionSort ascRel f).map projRank ∧
      List.Perm (top10 f) (f.map projRank) ∧
      List.Perm (bottom10 f) (f.map projRank) ∧
      (top10 f).Sorted (fun a b => b.score ≤ a.score) ∧
      (bottom10 f).Sorted (fun a b => a.score ≤ b.score)) ∧
    (20 ≤ f.length → ∀ tb tt : ℚ,
      tenthSmallest f = some tb → tenthLargest f = some tt → tb < tt →
      ∀ z ∈ top10 f, z ∉ bottom10 f) := by
  constructor
  · intro hlen
    have hdt : (List.insertionSort descRel f).take 10 = List.insertionSort descRel f :=
      List.take_of_length_le (by rw [List.length_insertionSort]; exact hlen)
    have hat : (List.insertionSort ascRel f).take 10 = List.insertionSort ascRel f :=
      List.take_of_length_le (by rw [List.length_insertionSort]; exact hlen)
    have htop : top10 f = (List.insertionSort descRel f).map projRank := by
      unfold top10; rw [hdt]
    have hbot : bottom10 f = (List.insertionSort ascRel f).map projRank := by
      unfold bottom10; rw [hat]
    refine ⟨htop, hbot, ?_, ?_, ?_, ?_⟩
    · rw [htop]; exact (List.perm_insertionSort descRel f).map projRank
    · rw [hbot]; exact (List.perm_insertionSort ascRel f).map projRank
    · exact List.Pairwise.map projRank (fun a b h => h)
        (List.Pairwise.sublist (List.take_sublist 10 _)
          (List.sorted_insertionSort descRel f))
    · exact List.Pairwise.map projRank (fun a b h => h)
        (List.Pairwise.sublist (List.take_sublist 10 _)
          (List.sorted_insertionSort ascRel f))
  · intro _ tb tt htb htt hlt z hzt hzb
    unfold tenthLargest at htt
    unfold tenthSmallest at htb
    unfold top10 at hzt
    unfold bottom10 at hzb
    rcases hgt : (List.insertionSort descRel f).get? 9 with _ | et
    · rw [hgt] at htt; simp at htt
    rcases hgb : (List.insertionSort ascRel f).get? 9 with _ | eb
    · rw [hgb] at htb; simp at htb
    rw [hgt] at htt
    rw [hgb] at htb
    have htt2 : et.base.score = tt := by simpa using htt
    have htb2 : eb.base.score = tb := by simpa using htb
    obtain ⟨x, hx, hxz⟩ := List.mem_map.mp hzt
    obtain ⟨y, hy, hyz⟩ := List.mem_map.mp hzb
    have hxr : descRel x et :=
      sorted_take_rel descRel (fun a => le_refl a.base.score) _
        (List.sorted_insertionSort descRel f) 9 et hgt x hx
    have hyr : ascRel y eb :=
      sorted_take_rel ascRel (fun a => le_refl a.base.score) _
        (List.sorted_insertionSort ascRel f) 9 eb hgb y hy
    have hzx : z.score = x.base.score := by rw [← hxz]; rfl
    have hzy : z.score = y.base.score := by rw [← hyz]; rfl
    have h1 : tt ≤ z.score := by rw [hzx, ← htt2]; exact hxr
    have h2 : z.score ≤ tb := by rw [hzy, ← htb2]; exact hyr
    linarith

/-- Witness for `rank_tables_spec`: the small-view branch at a one-row
view, the disjointness branch at twenty rows with scores 1..20 (10th
smallest 10, 10th largest 11). -/
theorem rank_tables_spec_witness :
    (enrG1.length ≤ 10 ∧ List.Perm (top10 enrG1) (enrG1.map projRank)) ∧
    (20 ≤ f20.length ∧ tenthSmallest f20 = some 10 ∧ tenthLargest f20 = some 11 ∧
      ∀ z ∈ top10 f20, z ∉ bottom10 f20) :=
  ⟨⟨by decide, ((rank_tables_spec enrG1).1 (by decide)).2.2.1⟩,
    ⟨by decide, by decide, by decide,
      (rank_tables_spec f20).2 (by decide) 10 11 (by decide) (by decide)
        (by decide)⟩⟩

/-- C9 counterexample: with 11 rows of pairwise-distinct scores 1..11,
the score-2 row sits in the Top-10 (descending rank 10) and also in the
Bottom-10 (ascending rank 2): the tables overlap with no score tie
anywhere, refuting rank-disjointness for every size greater than 10. -/
theorem rank_tables_overlap :
    f11.length = 11 ∧
    (f11.map (fun e => e.base.score)).Nodup ∧
    (⟨"b", some "C", 2⟩ : RankRow) ∈ top10 f11 ∧
    (⟨"b", some "C", 2⟩ : RankRow) ∈ bottom10 f11 := by
  refine ⟨rfl, by decide, by decide, by decide⟩

/-- Witness for `clicked_uses_first_match`: two rows carry GEOID `"g"`
(hours 17 and 18 in after-hours mode would do this); the shown payload is
the first one's. -/
theorem clicked_uses_first_match_witness :
    (∀ x ∈ [erow "x" 1 Cell.cnone], ¬ x.base.geoid = "g") ∧
    topJsonLookup
        ([erow "x" 1 Cell.cnone] ++ erow "g" 2 (payload "A" 1) ::
          [erow "g" 3 (payload "B" 1)]) "g" =
      some (payload "A" 1) :=
  ⟨by decide,
    (clicked_uses_first_match [erow "x" 1 Cell.cnone] [erow "g" 3 (payload "B" 1)]
      (erow "g" 2 (payload "A" 1)) "g" (by decide) rfl).1⟩

end SHFB
